import Mathlib

/-!
Shallow embedding of the `gox` generic utility library (Optional/Result
containers, slice combinators, MultiError aggregation) and proofs of the
specification claims about it.

Modelling conventions:
* A Go `error` value is `Option String`: `none` is the nil error, `some s`
  an error whose `Error()` message is `s`.
* A Go slice is `GoSlice α = Option (List α)`: `none` is the nil
  (absent/uninitialized) slice, `some l` a non-nil slice with elements `l`
  (so `some []` is the empty-but-present slice).  `gList` reads the
  elements, `gLen` the length — a nil slice has length 0, as in Go.
* A function that can panic is embedded with an `Option` result:
  `none` marks the panic.
-/

namespace Gox

/-- Go error values: `none` is Go's nil error. -/
abbrev GoError := Option String

/-- Go slices: `none` is the nil slice, `some l` a present slice. -/
abbrev GoSlice (α : Type) := Option (List α)

/-- Elements of a Go slice (`range` over a nil slice sees nothing). -/
def gList {α : Type} (s : GoSlice α) : List α := s.getD []

/-- Go `len` of a slice (0 for nil). -/
def gLen {α : Type} (s : GoSlice α) : Nat := (gList s).length

/-! ## Optional (src/pkg/gox/optional.go) -/

/-- Optional value: a value slot plus a presence flag, as in the source
struct `Optional[T] { value T; valid bool }`. -/
structure Optional (T : Type) where
  value : T
  valid : Bool
deriving DecidableEq, Repr

/-- OSome creates a present Optional. -/
def OSome {T : Type} (v : T) : Optional T := ⟨v, true⟩

/-- ONone creates an absent Optional; the value slot holds Go's zero value. -/
def ONone (T : Type) [Inhabited T] : Optional T := ⟨default, false⟩

/-- IsSome reports presence. -/
def Optional.IsSome {T : Type} (o : Optional T) : Bool := o.valid

/-- IsNone reports absence. -/
def Optional.IsNone {T : Type} (o : Optional T) : Bool := !o.valid

/-- Get returns the value slot and the presence flag. -/
def Optional.Get {T : Type} (o : Optional T) : T × Bool := (o.value, o.valid)

/-- MustGet returns the value and panics (`none`) when absent. -/
def Optional.MustGet {T : Type} (o : Optional T) : Option T :=
  if !o.valid then none else some o.value

/-- OrElse returns the value, or the given default when absent. -/
def Optional.OrElse {T : Type} (o : Optional T) (def_ : T) : T :=
  if !o.valid then def_ else o.value

/-- Map applies the function when present; returns the receiver unchanged
when absent. -/
def Optional.Map {T : Type} (o : Optional T) (fn : T → T) : Optional T :=
  if !o.valid then o else OSome (fn o.value)

/-- Filter demotes a present value failing the predicate to absent. -/
def Optional.Filter {T : Type} [Inhabited T] (o : Optional T) (fn : T → Bool) : Optional T :=
  if !o.valid || !fn o.value then ONone T else o

/-! ## Result (src/pkg/gox/result.go) -/

/-- Result: a data slot and an error slot; the source decides ok/err solely
by `err == nil`. -/
structure Result (T : Type) where
  data : T
  err : GoError
deriving DecidableEq, Repr

/-- ROk creates a successful Result (error slot nil). -/
def ROk {T : Type} (data : T) : Result T := ⟨data, none⟩

/-- RErr creates a Result whose error slot is the given Go error value
(which may itself be nil); the data slot holds Go's zero value. -/
def RErr (T : Type) [Inhabited T] (err : GoError) : Result T := ⟨default, err⟩

/-- IsOk: the error slot is nil. -/
def Result.IsOk {T : Type} (r : Result T) : Bool := r.err.isNone

/-- IsErr: the error slot is non-nil. -/
def Result.IsErr {T : Type} (r : Result T) : Bool := r.err.isSome

/-- Unwrap returns the data and panics (`none`) when the error slot is
non-nil. -/
def Result.Unwrap {T : Type} (r : Result T) : Option T :=
  if r.err.isSome then none else some r.data

/-- UnwrapErr returns the error and panics (`none`) when the error slot is
nil. -/
def Result.UnwrapErr {T : Type} (r : Result T) : Option String :=
  if r.err.isSome then r.err else none

/-- Get returns the data slot and the success flag `err == nil`. -/
def Result.Get {T : Type} (r : Result T) : T × Bool := (r.data, r.err.isNone)

/-- AndThen chains a Result-returning continuation; an error short-circuits. -/
def Result.AndThen {T : Type} (r : Result T) (fn : T → Result T) : Result T :=
  if r.err.isSome then r else fn r.data

/-- AndThenTo chains a type-changing continuation; an error short-circuits
into `RErr` of the same error. -/
def AndThenTo {T R : Type} [Inhabited R] (r : Result T) (fn : T → Result R) : Result R :=
  if r.err.isSome then RErr R r.err else fn r.data

/-- Collect loop: walks the Results accumulating data, returning the first
non-nil error as a failure (with zero-valued data, nil slice read as `[]`). -/
def collectLoop {T : Type} (acc : List T) : List (Result T) → Result (List T)
  | [] => ⟨acc, none⟩
  | r :: rs =>
    if r.err.isSome then ⟨[], r.err⟩ else collectLoop (acc ++ [r.data]) rs

/-- Collect reduces a slice of Results to a Result of a slice: first error
wins, otherwise Ok of all data in order. -/
def Collect {T : Type} (results : List (Result T)) : Result (List T) :=
  collectLoop [] results

/-! ## Variadic Max/Min (src/unnamed/part_003) -/

/-- Max over the variadic arguments; panics (`none`) on an empty argument
list, else folds the strict-greater test from the first element. -/
def Max {T : Type} [LinearOrder T] : List T → Option T
  | [] => none
  | x :: xs => some (xs.foldl (fun m item => if item > m then item else m) x)

/-- Min over the variadic arguments; panics (`none`) on an empty argument
list, else folds the strict-less test from the first element. -/
def Min {T : Type} [LinearOrder T] : List T → Option T
  | [] => none
  | x :: xs => some (xs.foldl (fun m item => if item < m then item else m) x)

/-! ## Collection combinators (src/pkg/gox/fp.go) -/

/-- Map over a slice: a nil slice maps to nil, otherwise each element is
transformed in order. -/
def Map {T R : Type} (items : GoSlice T) (fn : T → R) : GoSlice R :=
  match items with
  | none => none
  | some l => some (l.map fn)

/-- Filter a slice: a nil slice maps to nil, otherwise an empty present
slice is grown with the elements satisfying the predicate, in order. -/
def Filter {T : Type} (items : GoSlice T) (fn : T → Bool) : GoSlice T :=
  match items with
  | none => none
  | some l => some (l.filter fn)

/-- Unique loop: keeps an element when it has not been seen yet. -/
def uniqueLoop {T : Type} [DecidableEq T] (seen : List T) : List T → List T
  | [] => []
  | x :: xs => if x ∈ seen then uniqueLoop seen xs else x :: uniqueLoop (x :: seen) xs

/-- Unique: a nil slice maps to nil, otherwise duplicates after the first
occurrence are dropped. -/
def Unique {T : Type} [DecidableEq T] (items : GoSlice T) : GoSlice T :=
  match items with
  | none => none
  | some l => some (uniqueLoop [] l)

/-- Flatten: a nil outer slice maps to nil, otherwise the inner slices are
appended in order (a nil inner slice contributes nothing). -/
def Flatten {T : Type} (items : GoSlice (GoSlice T)) : GoSlice T :=
  match items with
  | none => none
  | some ls => some (ls.foldl (fun acc inner => acc ++ gList inner) [])

/-- Chunk loop: with positive size, repeatedly takes `size` elements. -/
def chunkLoop {T : Type} (size : Nat) (l : List T) : List (List T) :=
  if _h : size = 0 ∨ l.length = 0 then []
  else l.take size :: chunkLoop size (l.drop size)
termination_by l.length
decreasing_by
  simp only [not_or] at _h
  simp only [List.length_drop]
  omega

/-- Chunk: nil for non-positive size or an empty (or nil) input, otherwise
the consecutive groups of `size` elements. -/
def Chunk {T : Type} (items : GoSlice T) (size : Int) : GoSlice (List T) :=
  if size ≤ 0 ∨ gLen items = 0 then none
  else some (chunkLoop size.toNat (gList items))

/-! ## Set operations on slices (src/pkg/gox/set.go) -/

/-- Intersect loop: keeps elements of `a` that occur in `b` and were not
already kept. -/
def intersectLoop {T : Type} [DecidableEq T] (bset : List T) (seen : List T) : List T → List T
  | [] => []
  | x :: xs =>
    if x ∈ bset then
      if x ∈ seen then intersectLoop bset seen xs
      else x :: intersectLoop bset (x :: seen) xs
    else intersectLoop bset seen xs

/-- Intersect: an empty (or nil) input short-circuits to an empty present
slice; otherwise the de-duplicated elements of `a` occurring in `b`. -/
def Intersect {T : Type} [DecidableEq T] (a b : GoSlice T) : GoSlice T :=
  if gLen a = 0 ∨ gLen b = 0 then some []
  else some (intersectLoop (gList b) [] (gList a))

/-- Difference: an empty (or nil) `a` yields an empty present slice, an
empty (or nil) `b` yields a present copy of `a`, else the elements of `a`
not occurring in `b`, order preserved, no de-duplication. -/
def Difference {T : Type} [DecidableEq T] (a b : GoSlice T) : GoSlice T :=
  if gLen a = 0 then some []
  else if gLen b = 0 then some (gList a)
  else some ((gList a).filter (fun x => decide (x ∉ gList b)))

/-- IsSubset: an empty `a` is a subset of anything; a non-empty `a` is not
a subset of an empty `b`; else every element of `a` is checked against `b`. -/
def IsSubset {T : Type} [DecidableEq T] (a b : GoSlice T) : Bool :=
  if gLen a = 0 then true
  else if gLen b = 0 then false
  else (gList a).all (fun x => x ∈ gList b)

/-- Zip loop: index-wise pairing up to the shorter length. -/
def zipLoop {T U : Type} : List T → List U → List (T × U)
  | x :: xs, y :: ys => (x, y) :: zipLoop xs ys
  | _, _ => []

/-- Zip: a present slice of pairs whose length is the minimum of the input
lengths. -/
def Zip {T U : Type} (a : GoSlice T) (b : GoSlice U) : GoSlice (T × U) :=
  some (zipLoop (gList a) (gList b))

/-- Unzip: two present slices collecting the first and second components. -/
def Unzip {T U : Type} (pairs : GoSlice (T × U)) : GoSlice T × GoSlice U :=
  (some ((gList pairs).map Prod.fst), some ((gList pairs).map Prod.snd))

/-! ## MultiError (src/unnamed/part_002) -/

/-- MultiError: the recorded (non-nil) errors in insertion order, each
represented by its message. -/
structure MultiError where
  errors : List String
deriving DecidableEq, Repr

/-- HasErrors: at least one error was recorded. -/
def MultiError.HasErrors (m : MultiError) : Bool := m.errors.length > 0

/-- Error renders the empty string for no errors, the sole message for one,
and otherwise a count banner followed by the messages joined in a loop that
puts a separator before every element except the first. -/
def MultiError.Error (m : MultiError) : String :=
  if m.errors.length = 0 then ""
  else if m.errors.length = 1 then m.errors.headD ""
  else
    m.errors.enum.foldl
      (fun msg p => (if 0 < p.1 then msg ++ "; " else msg) ++ p.2)
      (toString m.errors.length ++ " errors: ")

/-- ErrorOrNil returns the nil error when nothing was recorded, else the
aggregate itself. -/
def MultiError.ErrorOrNil (m : MultiError) : Option MultiError :=
  if !m.HasErrors then none else some m

/-! ## Claim theorems -/

/-- C10: a Result's ok/err state is decided solely by the nil-ness of its
error slot, so `RErr T nil` reports Ok (not Err) and Unwrap returns the zero
value of `T` without panicking. -/
theorem rerr_nil_is_ok (T : Type) [Inhabited T] :
    (RErr T none).IsOk = true ∧ (RErr T none).IsErr = false ∧
    (RErr T none).Unwrap = some (default : T) :=
  ⟨rfl, rfl, rfl⟩

/-- Witness for C10 at `T = Nat`. -/
theorem rerr_nil_is_ok_witness :
    (RErr Nat none).IsOk = true ∧ (RErr Nat none).IsErr = false ∧
    (RErr Nat none).Unwrap = some 0 :=
  rerr_nil_is_ok Nat

/-- C3: AndThen on a failure returns the receiver unchanged, and the result
does not depend on the function argument (so the function is never invoked). -/
theorem andThen_short_circuits (T : Type) (r : Result T) (h : r.IsErr = true)
    (f1 f2 : T → Result T) :
    r.AndThen f1 = r ∧ r.AndThen f1 = r.AndThen f2 := by
  unfold Result.IsErr at h
  unfold Result.AndThen
  rw [h]
  exact ⟨rfl, rfl⟩

/-- Witness for C3 at a concrete failure Result. -/
theorem andThen_short_circuits_witness :
    (RErr Nat (some "boom")).AndThen (fun x => ROk (x + 1)) = RErr Nat (some "boom") ∧
    (RErr Nat (some "boom")).AndThen (fun x => ROk (x + 1))
      = (RErr Nat (some "boom")).AndThen (fun _ => ROk 7) :=
  andThen_short_circuits Nat (RErr Nat (some "boom")) (by decide)
    (fun x => ROk (x + 1)) (fun _ => ROk 7)

/-- C7: Map on a present Optional is present with the transformed value (so
Get returns the pair of the transformed value and true); Map on an absent
Optional returns it unchanged, independently of the function. -/
theorem optional_map_spec (T : Type) (o : Optional T) (f : T → T) :
    (o.valid = true →
      o.Map f = OSome (f o.value) ∧ (o.Map f).Get = (f o.value, true)) ∧
    (o.valid = false → o.Map f = o ∧ ∀ g : T → T, o.Map f = o.Map g) := by
  constructor
  · intro h
    unfold Optional.Map
    rw [h]
    exact ⟨rfl, rfl⟩
  · intro h
    unfold Optional.Map
    rw [h]
    exact ⟨rfl, fun g => rfl⟩

/-- Witness for C7 at a present and at an absent Optional over Nat. -/
theorem optional_map_spec_witness :
    (OSome (5 : Nat)).Map (fun x => x + 1) = OSome 6 ∧
    (Optional.mk (0 : Nat) false).Map (fun x => x + 1) = Optional.mk 0 false :=
  ⟨((optional_map_spec Nat (OSome 5) (fun x => x + 1)).1 rfl).1.trans (by decide),
   ((optional_map_spec Nat (Optional.mk 0 false) (fun x => x + 1)).2 rfl).1⟩

/-- C2 counterexample: the variadic Max is an operation other than MustGet,
Unwrap and UnwrapErr, yet it aborts (panics) on an empty argument list, so
not every other operation is total. -/
theorem max_empty_aborts : (Max ([] : List Nat)).isSome = false := rfl

/-- C2 (amended): MustGet fails exactly on absence, Unwrap exactly on a
non-nil error, UnwrapErr exactly on a nil error, and the variadic Max and
Min fail exactly on an empty argument list; each succeeds everywhere else. -/
theorem partial_ops_exactly :
    (∀ (T : Type) (o : Optional T), o.MustGet.isSome = o.valid) ∧
    (∀ (T : Type) (r : Result T), r.Unwrap.isSome = r.err.isNone) ∧
    (∀ (T : Type) (r : Result T), r.UnwrapErr.isSome = r.err.isSome) ∧
    (∀ (T : Type) [LinearOrder T] (l : List T), (Max l).isSome = !l.isEmpty) ∧
    (∀ (T : Type) [LinearOrder T] (l : List T), (Min l).isSome = !l.isEmpty) := by
  refine ⟨?_, ?_, ?_, ?_, ?_⟩
  · intro T o
    cases o with
    | mk v b => cases b <;> rfl
  · intro T r
    cases r with
    | mk d e => cases e <;> rfl
  · intro T r
    cases r with
    | mk d e => cases e <;> rfl
  · intro T inst l
    cases l <;> rfl
  · intro T inst l
    cases l <;> rfl

/-- Witness for C2's amended theorem at concrete inputs. -/
theorem partial_ops_exactly_witness :
    (Max ([1, 2] : List Nat)).isSome = true ∧
    (OSome (3 : Nat)).MustGet.isSome = true :=
  ⟨(partial_ops_exactly.2.2.2.1 Nat [1, 2]).trans (by decide),
   (partial_ops_exactly.1 Nat (OSome 3)).trans (by decide)⟩

/-- C4 counterexample: Intersect maps a nil first input to an empty-present
slice, not to nil. -/
theorem intersect_nil_counterexample :
    Intersect (none : GoSlice Nat) (some [1]) ≠ (none : GoSlice Nat) := by
  decide

/-- C4 (amended): Map, Filter, Unique and Flatten preserve the nil vs
empty-present distinction of their input, while Intersect and Difference
always return a present slice, even on nil input. -/
theorem nil_preservation (T R : Type) [DecidableEq T] :
    (∀ f : T → R, Map (none : GoSlice T) f = none ∧ Map (some []) f = some []) ∧
    (∀ p : T → Bool, Filter (none : GoSlice T) p = none ∧ Filter (some []) p = some []) ∧
    (Unique (none : GoSlice T) = none ∧ Unique (some ([] : List T)) = some []) ∧
    (Flatten (none : GoSlice (GoSlice T)) = none ∧ Flatten (some []) = some ([] : List T)) ∧
    (∀ a b : GoSlice T, Intersect a b ≠ none ∧ Difference a b ≠ none) := by
  refine ⟨fun f => ⟨rfl, rfl⟩, fun p => ⟨rfl, rfl⟩, ⟨rfl, rfl⟩, ⟨rfl, rfl⟩, fun a b => ⟨?_, ?_⟩⟩
  · unfold Intersect
    split <;> simp
  · unfold Difference
    split
    · simp
    · split <;> simp

/-- Witness for C4's amended theorem at concrete inputs. -/
theorem nil_preservation_witness :
    Map (none : GoSlice Nat) (fun x => x + 1) = none ∧
    Intersect (some [1] : GoSlice Nat) (some [1]) ≠ none :=
  ⟨((nil_preservation Nat Nat).1 (fun x => x + 1)).1,
   ((nil_preservation Nat Nat).2.2.2.2 (some [1]) (some [1])).1⟩

/-- C9: IsSubset is true exactly when every element of `a` occurs in `b`;
an empty `a` is a subset of anything and a non-empty `a` is not a subset of
an empty `b`. -/
theorem isSubset_iff (T : Type) [DecidableEq T] (a b : GoSlice T) :
    (IsSubset a b = true ↔ ∀ x ∈ gList a, x ∈ gList b) ∧
    IsSubset (some ([] : List T)) b = true ∧
    (gLen a ≠ 0 → IsSubset a (some []) = false) := by
  refine ⟨?_, ?_, ?_⟩
  · unfold IsSubset
    by_cases ha : gLen a = 0
    · have ha2 : gList a = [] := List.length_eq_zero.mp ha
      simp [ha, ha2]
    · by_cases hb : gLen b = 0
      · have hb2 : gList b = [] := List.length_eq_zero.mp hb
        have ha2 : gList a ≠ [] := fun hnil => ha (by unfold gLen; rw [hnil]; rfl)
        obtain ⟨x, xs, hx⟩ := List.exists_cons_of_ne_nil ha2
        simp [ha, hb, hb2]
        exact ⟨x, by rw [hx]; exact List.mem_cons_self x xs⟩
      · simp [ha, hb, List.all_eq_true]
  · unfold IsSubset
    simp [gLen, gList]
  · intro h
    unfold IsSubset
    have h0 : gLen (some ([] : List T)) = 0 := rfl
    simp [h, h0]

/-- Witness for C9 at concrete slices over Nat. -/
theorem isSubset_iff_witness :
    IsSubset (some ([] : List Nat)) (some [1, 2]) = true ∧
    (IsSubset (some [1] : GoSlice Nat) (some [1, 2]) = true ↔
      ∀ x ∈ gList (some [1] : GoSlice Nat), x ∈ gList (some [1, 2] : GoSlice Nat)) ∧
    IsSubset (some [1] : GoSlice Nat) (some []) = false :=
  ⟨(isSubset_iff Nat (some []) (some [1, 2])).2.1,
   (isSubset_iff Nat (some [1]) (some [1, 2])).1,
   (isSubset_iff Nat (some [1]) (some [])).2.2 (by decide)⟩

/-- Length of the zip loop is the minimum of the input lengths. -/
theorem zipLoop_length (T U : Type) (a : List T) (b : List U) :
    (zipLoop a b).length = min a.length b.length := by
  induction a generalizing b with
  | nil => cases b <;> rfl
  | cons x xs ih =>
    cases b with
    | nil => rfl
    | cons y ys =>
      simp only [zipLoop, List.length_cons, ih]
      omega

/-- Zipping against an empty second list yields the empty list. -/
theorem zipLoop_nil_right (T U : Type) (a : List T) :
    zipLoop a ([] : List U) = [] := by
  cases a <;> rfl

/-- Entries of the zip loop are the pairs of the entries of the inputs. -/
theorem zipLoop_get? (T U : Type) (a : List T) (b : List U) (i : Nat) :
    (zipLoop a b).get? i
      = (a.get? i).bind (fun x => (b.get? i).map (fun y => (x, y))) := by
  induction a generalizing b i with
  | nil => cases b <;> cases i <;> rfl
  | cons x xs ih =>
    cases b with
    | nil =>
      rw [zipLoop_nil_right]
      cases hx : (x :: xs).get? i <;> simp [hx]
    | cons y ys =>
      cases i with
      | zero => rfl
      | succ n =>
        simp only [zipLoop, List.get?_cons_succ]
        exact ih ys n

/-- First components of the zip loop recover the first input truncated to
the common length. -/
theorem zipLoop_map_fst (T U : Type) (a : List T) (b : List U) :
    (zipLoop a b).map Prod.fst = a.take (min a.length b.length) := by
  induction a generalizing b with
  | nil => cases b <;> rfl
  | cons x xs ih =>
    cases b with
    | nil => rfl
    | cons y ys =>
      simp only [zipLoop, List.map_cons, List.length_cons, Nat.succ_min_succ,
        List.take_succ_cons, ih]

/-- Second components of the zip loop recover the second input truncated to
the common length. -/
theorem zipLoop_map_snd (T U : Type) (a : List T) (b : List U) :
    (zipLoop a b).map Prod.snd = b.take (min a.length b.length) := by
  induction a generalizing b with
  | nil => cases b <;> rfl
  | cons x xs ih =>
    cases b with
    | nil => rfl
    | cons y ys =>
      simp only [zipLoop, List.map_cons, List.length_cons, Nat.succ_min_succ,
        List.take_succ_cons, ih]

/-- C8: Zip has the length of the shorter input, pairs the inputs
index-wise, and Unzip of a Zip returns both inputs truncated to the common
length — the exact inverse when the lengths agree. -/
theorem zip_unzip_spec (T U : Type) (a : GoSlice T) (b : GoSlice U) :
    gLen (Zip a b) = min (gLen a) (gLen b) ∧
    (∀ i : Nat, (gList (Zip a b)).get? i
      = ((gList a).get? i).bind (fun x => ((gList b).get? i).map (fun y => (x, y)))) ∧
    Unzip (Zip a b) = (some ((gList a).take (min (gLen a) (gLen b))),
      some ((gList b).take (min (gLen a) (gLen b)))) ∧
    (gLen a = gLen b → Unzip (Zip a b) = (some (gList a), some (gList b))) := by
  have hfst := zipLoop_map_fst T U (gList a) (gList b)
  have hsnd := zipLoop_map_snd T U (gList a) (gList b)
  refine ⟨zipLoop_length T U (gList a) (gList b),
    fun i => zipLoop_get? T U (gList a) (gList b) i, ?_, ?_⟩
  · show (some ((zipLoop (gList a) (gList b)).map Prod.fst),
        some ((zipLoop (gList a) (gList b)).map Prod.snd)) = _
    rw [hfst, hsnd]
    rfl
  · intro h
    have hlen : (gList a).length = (gList b).length := h
    show (some ((zipLoop (gList a) (gList b)).map Prod.fst),
        some ((zipLoop (gList a) (gList b)).map Prod.snd)) = _
    rw [hfst, hsnd, hlen, min_self, List.take_length, ← hlen, List.take_length]

/-- Witness for C8 at concrete slices. -/
theorem zip_unzip_spec_witness :
    gLen (Zip (some [1, 2, 3] : GoSlice Nat) (some [4, 5] : GoSlice Nat)) = 2 ∧
    Unzip (Zip (some [1, 2] : GoSlice Nat) (some [4, 5] : GoSlice Nat))
      = (some [1, 2], some [4, 5]) :=
  ⟨(zip_unzip_spec Nat Nat (some [1, 2, 3]) (some [4, 5])).1.trans (by decide),
   (zip_unzip_spec Nat Nat (some [1, 2]) (some [4, 5])).2.2.2 (by decide)⟩

/-- The collect loop returns the first recorded failure, otherwise Ok of the
accumulator followed by all data in order. -/
theorem collectLoop_first_error (T : Type) (acc : List T) (results : List (Result T)) :
    collectLoop acc results =
      match results.find? (fun r => r.err.isSome) with
      | some r => Result.mk [] r.err
      | none => Result.mk (acc ++ results.map (fun r => r.data)) none := by
  induction results generalizing acc with
  | nil => simp [collectLoop]
  | cons r rs ih =>
    by_cases h : r.err.isSome = true
    · rw [List.find?_cons_of_pos (p := fun s : Result T => s.err.isSome) _ h]
      unfold collectLoop
      rw [if_pos h]
    · rw [List.find?_cons_of_neg (p := fun s : Result T => s.err.isSome) _ (by simpa using h)]
      unfold collectLoop
      rw [if_neg h, ih]
      cases hf : rs.find? (fun r => r.err.isSome) with
      | some r2 => rfl
      | none => simp

/-- The chunk loop of an empty list is empty. -/
theorem chunkLoop_nil (T : Type) (s : Nat) : chunkLoop s ([] : List T) = [] := by
  rw [chunkLoop]
  simp

/-- Fuel-bounded form: the chunks concatenate back to the input list. -/
theorem chunkLoop_flatten_aux (T : Type) (s : Nat) (hs : 0 < s) :
    ∀ (n : Nat) (l : List T), l.length ≤ n → (chunkLoop s l).flatten = l := by
  intro n
  induction n with
  | zero =>
    intro l hl
    rw [List.length_eq_zero.mp (Nat.le_zero.mp hl), chunkLoop_nil]
    rfl
  | succ n ih =>
    intro l hl
    rw [chunkLoop]
    split
    · rename_i hcond
      rcases hcond with h0 | hlen
      · omega
      · rw [List.length_eq_zero.mp hlen]
        rfl
    · rename_i hcond
      simp only [not_or] at hcond
      have hdrop : (l.drop s).length ≤ n := by
        rw [List.length_drop]
        omega
      rw [List.flatten_cons, ih (l.drop s) hdrop, List.take_append_drop]

/-- The chunks concatenate back to the input list. -/
theorem chunkLoop_flatten (T : Type) (s : Nat) (hs : 0 < s) (l : List T) :
    (chunkLoop s l).flatten = l :=
  chunkLoop_flatten_aux T s hs l.length l le_rfl

/-- Fuel-bounded form: every chunk is non-empty and no longer than `s`. -/
theorem chunkLoop_sizes_aux (T : Type) (s : Nat) (hs : 0 < s) :
    ∀ (n : Nat) (l : List T), l.length ≤ n →
      ∀ g ∈ chunkLoop s l, g.length ≤ s ∧ g ≠ [] := by
  intro n
  induction n with
  | zero =>
    intro l hl g hg
    rw [List.length_eq_zero.mp (Nat.le_zero.mp hl), chunkLoop_nil] at hg
    cases hg
  | succ n ih =>
    intro l hl g hg
    rw [chunkLoop] at hg
    split at hg
    · cases hg
    · rename_i hcond
      simp only [not_or] at hcond
      rcases List.mem_cons.mp hg with hg1 | hg2
      · subst hg1
        constructor
        · rw [List.length_take]
          omega
        · intro hnil
          have hlen0 := congrArg List.length hnil
          rw [List.length_take] at hlen0
          simp only [List.length_nil] at hlen0
          omega
      · exact ih (l.drop s) (by rw [List.length_drop]; omega) g hg2

/-- Every chunk is non-empty and no longer than `s`. -/
theorem chunkLoop_sizes (T : Type) (s : Nat) (hs : 0 < s) (l : List T) :
    ∀ g ∈ chunkLoop s l, g.length ≤ s ∧ g ≠ [] :=
  chunkLoop_sizes_aux T s hs l.length l le_rfl

/-- Fuel-bounded form: every chunk except the last has length exactly `s`. -/
theorem chunkLoop_dropLast_aux (T : Type) (s : Nat) (hs : 0 < s) :
    ∀ (n : Nat) (l : List T), l.length ≤ n →
      ∀ g ∈ (chunkLoop s l).dropLast, g.length = s := by
  intro n
  induction n with
  | zero =>
    intro l hl g hg
    rw [List.length_eq_zero.mp (Nat.le_zero.mp hl), chunkLoop_nil] at hg
    cases hg
  | succ n ih =>
    intro l hl g hg
    rw [chunkLoop] at hg
    split at hg
    · cases hg
    · rename_i hcond
      simp only [not_or] at hcond
      by_cases hrest : chunkLoop s (l.drop s) = []
      · rw [hrest] at hg
        simp at hg
      · rw [List.dropLast_cons_of_ne_nil hrest] at hg
        rcases List.mem_cons.mp hg with hg1 | hg2
        · subst hg1
          have hdne : l.drop s ≠ [] := by
            intro hd
            exact hrest (by rw [hd, chunkLoop_nil])
          have hslt : s < l.length := by
            have h1 := List.length_drop s l
            have h2 : (l.drop s).length ≠ 0 :=
              fun h0 => hdne (List.length_eq_zero.mp h0)
            omega
          rw [List.length_take]
          omega
        · exact ih (l.drop s) (by rw [List.length_drop]; omega) g hg2

/-- Every chunk except the last has length exactly `s`. -/
theorem chunkLoop_dropLast (T : Type) (s : Nat) (hs : 0 < s) (l : List T) :
    ∀ g ∈ (chunkLoop s l).dropLast, g.length = s :=
  chunkLoop_dropLast_aux T s hs l.length l le_rfl

/-- C5: Chunk returns nil (the no-result sentinel) for non-positive size or
empty input; otherwise it returns the consecutive groups in order, each
non-empty and of length `size` except possibly a shorter last group, whose
concatenation is the input. -/
theorem chunk_spec (T : Type) (items : GoSlice T) (size : Int) :
    (size ≤ 0 ∨ gLen items = 0 → Chunk items size = none) ∧
    (0 < size → 0 < gLen items →
      ∃ groups, Chunk items size = some groups ∧
        groups.flatten = gList items ∧
        (∀ g ∈ groups, g.length ≤ size.toNat ∧ g ≠ []) ∧
        (∀ g ∈ groups.dropLast, g.length = size.toNat)) := by
  constructor
  · intro h
    unfold Chunk
    rw [if_pos h]
  · intro hsz hlen
    have hs : 0 < size.toNat := by omega
    refine ⟨chunkLoop size.toNat (gList items), ?_, ?_, ?_, ?_⟩
    · unfold Chunk
      rw [if_neg (by omega)]
    · exact chunkLoop_flatten T size.toNat hs (gList items)
    · exact chunkLoop_sizes T size.toNat hs (gList items)
    · exact chunkLoop_dropLast T size.toNat hs (gList items)

/-- Witness for C5 at the spec's example input. -/
theorem chunk_spec_witness :
    Chunk (some [1, 2, 3, 4, 5, 6, 7] : GoSlice Nat) 0 = none ∧
    (∃ groups, Chunk (some [1, 2, 3, 4, 5, 6, 7] : GoSlice Nat) 3 = some groups ∧
      groups.flatten = gList (some [1, 2, 3, 4, 5, 6, 7] : GoSlice Nat) ∧
      (∀ g ∈ groups, g.length ≤ (3 : Int).toNat ∧ g ≠ []) ∧
      (∀ g ∈ groups.dropLast, g.length = (3 : Int).toNat)) :=
  ⟨(chunk_spec Nat (some [1, 2, 3, 4, 5, 6, 7]) 0).1 (Or.inl (by decide)),
   (chunk_spec Nat (some [1, 2, 3, 4, 5, 6, 7]) 3).2 (by decide) (by decide)⟩

/-- C1: Collect returns a failure wrapping exactly the first non-nil error
in sequence order if any, otherwise a success wrapping all data values in
the original order. -/
theorem collect_first_error (T : Type) (results : List (Result T)) :
    Collect results =
      match results.find? (fun r => r.err.isSome) with
      | some r => Result.mk [] r.err
      | none => Result.mk (results.map (fun r => r.data)) none := by
  unfold Collect
  rw [collectLoop_first_error]
  cases results.find? (fun r => r.err.isSome) <;> simp

/-- Tail of a joined rendering: each message preceded by the separator. -/
def sepTail : List String → String
  | [] => ""
  | e :: rest => "; " ++ e ++ sepTail rest

/-- Messages joined with the "; " separator in order: the first message,
then every further message preceded by the separator. -/
def joinedMessages : List String → String
  | [] => ""
  | e :: rest => e ++ sepTail rest

/-- The rendering loop over messages enumerated from a positive index
appends the separator before every message. -/
theorem errorLoop_enumFrom (l : List String) :
    ∀ (k : Nat) (init : String), 0 < k →
      (List.enumFrom k l).foldl
        (fun msg p => (if 0 < p.1 then msg ++ "; " else msg) ++ p.2) init
      = init ++ sepTail l := by
  induction l with
  | nil =>
    intro k init hk
    rw [sepTail]
    simp [String.append_empty]
  | cons e rest ih =>
    intro k init hk
    show (List.enumFrom (k + 1) rest).foldl
        (fun msg p => (if 0 < p.1 then msg ++ "; " else msg) ++ p.2)
        ((if 0 < k then init ++ "; " else init) ++ e)
      = init ++ sepTail (e :: rest)
    rw [if_pos hk, ih (k + 1) ((init ++ "; ") ++ e) (Nat.succ_pos k), sepTail]
    simp only [String.append_assoc]

/-- C6: Error renders "" for zero recorded errors and the sole message for
one; for two or more it renders the count, " errors: ", and the messages
joined with "; " in insertion order; ErrorOrNil is nil exactly when nothing
was recorded and otherwise the aggregate itself. -/
theorem multiError_spec (m : MultiError) :
    (m.errors.length = 0 → m.Error = "" ∧ m.ErrorOrNil = none) ∧
    (∀ e, m.errors = [e] → m.Error = e) ∧
    (2 ≤ m.errors.length →
      m.Error = toString m.errors.length ++ " errors: " ++ joinedMessages m.errors) ∧
    (0 < m.errors.length → m.ErrorOrNil = some m) := by
  refine ⟨?_, ?_, ?_, ?_⟩
  · intro h
    constructor
    · unfold MultiError.Error
      rw [if_pos h]
    · simp [MultiError.ErrorOrNil, MultiError.HasErrors, h]
  · intro e he
    unfold MultiError.Error
    rw [he]
    rfl
  · intro h
    unfold MultiError.Error
    rw [if_neg (by omega), if_neg (by omega)]
    cases hm : m.errors with
    | nil =>
      rw [hm] at h
      simp at h
    | cons e rest =>
      show (List.enumFrom 1 rest).foldl
          (fun msg p => (if 0 < p.1 then msg ++ "; " else msg) ++ p.2)
          ((if 0 < 0 then (toString (e :: rest).length ++ " errors: ") ++ "; "
            else (toString (e :: rest).length ++ " errors: ")) ++ e)
        = toString (e :: rest).length ++ " errors: " ++ joinedMessages (e :: rest)
      rw [if_neg (by omega),
        errorLoop_enumFrom rest 1 ((toString (e :: rest).length ++ " errors: ") ++ e)
          Nat.one_pos,
        joinedMessages]
      simp only [String.append_assoc]
  · intro h
    simp [MultiError.ErrorOrNil, MultiError.HasErrors, h]

/-- Witness for C6 at the spec's concrete examples. -/
theorem multiError_spec_witness :
    (MultiError.mk []).Error = "" ∧ (MultiError.mk []).ErrorOrNil = none ∧
    (MultiError.mk ["boom"]).Error = "boom" ∧
    (MultiError.mk ["e1", "e2", "e3"]).Error = "3 errors: e1; e2; e3" ∧
    (MultiError.mk ["e1"]).ErrorOrNil = some (MultiError.mk ["e1"]) :=
  ⟨((multiError_spec (MultiError.mk [])).1 rfl).1,
   ((multiError_spec (MultiError.mk [])).1 rfl).2,
   (multiError_spec (MultiError.mk ["boom"])).2.1 "boom" rfl,
   ((multiError_spec (MultiError.mk ["e1", "e2", "e3"])).2.2.1 (by decide)).trans (by decide),
   (multiError_spec (MultiError.mk ["e1"])).2.2.2 (by decide)⟩

end Gox
